import Mathlib

/-!
# Verification of the properties-file sync tool

Shallow embedding of `src/update_db_connection.py` (class `UpdateDbConnection`).
The pure text manipulation (`_read_property`, `_update_property`) is embedded as
functions on `List Char` / `String`; the git workflow (`_clone_or_pull`,
`_commit_and_push`, `_rollback`, `_stash_changes`, `_restore_stash`, `execute`)
is embedded as a pure function over an environment `Env` describing the outcomes
of external git operations, producing a trace of effects (`Eff`) and an
`UpdateResult`.
-/

namespace UpdateDb

/-- Python `str.strip()` whitespace set, restricted to the ASCII whitespace
characters (space, tab, newline, carriage return, vertical tab, form feed).
Unicode whitespace beyond ASCII is not modelled; all inputs of interest are
ASCII. -/
def pyIsSpace (c : Char) : Bool :=
  c = ' ' || c = '\t' || c = '\n' || c = '\r' || c = '\x0b' || c = '\x0c'

/-- Python `str.strip()` on a character list: drop leading and trailing
whitespace. -/
def pyStrip (cs : List Char) : List Char :=
  ((cs.dropWhile pyIsSpace).reverse.dropWhile pyIsSpace).reverse

/-- Split a character list at the FIRST occurrence of `sep`, mirroring Python
`s.split(sep, 1)`: `none` when `sep` does not occur (which also models the
Python membership test `sep in s` returning `False`); `some (before, after)`
otherwise. -/
def splitFirst (sep : Char) : List Char → Option (List Char × List Char)
  | [] => none
  | c :: cs =>
    if c = sep then some ([], cs)
    else match splitFirst sep cs with
      | none => none
      | some (a, b) => some (c :: a, b)

/-- Universal-newlines translation done by Python text-mode reading
(`open(..., 'r')` with default `newline=None`): `\r\n` and lone `\r` both
become `\n`. -/
def normNL : List Char → List Char
  | [] => []
  | '\r' :: '\n' :: cs => '\n' :: normNL cs
  | '\r' :: cs => '\n' :: normNL cs
  | c :: cs => c :: normNL cs

/-- Split file content into the lines Python's `for line in f` iterates over:
each line keeps its trailing `\n`; a final segment without `\n` is a line iff
it is nonempty. -/
def splitLinesAux (acc : List Char) : List Char → List (List Char)
  | [] => if acc = [] then [] else [acc.reverse]
  | c :: cs =>
    if c = '\n' then (acc.reverse ++ ['\n']) :: splitLinesAux [] cs
    else splitLinesAux (c :: acc) cs

def splitLines (cs : List Char) : List (List Char) :=
  splitLinesAux [] cs

/-- One iteration step of `_read_property`'s loop body on an (already
newline-kept) line: `line = line.strip()`; skip if empty or starting with
`'#'`; if `'='` occurs, split at the first `'='` into `k, v` and return
`v.strip()` when `k.strip() == key`; otherwise move on.
`none` = this line produced no return (loop continues). -/
def readLine (key : String) (l : List Char) : Option String :=
  let line := pyStrip l
  if line = [] then none
  else if line.headD ' ' = '#' then none
  else match splitFirst '=' line with
    | none => none
    | some (k, v) =>
      if String.mk (pyStrip k) = key then some (String.mk (pyStrip v)) else none

/-- `_read_property`'s scan over the lines of the file: first line whose
`readLine` returns a value wins. -/
def readPropLines (key : String) : List (List Char) → Option String
  | [] => none
  | l :: ls =>
    match readLine key l with
    | some v => some v
    | none => readPropLines key ls

/-- `_read_property(file_path, key)`: `none` when the file does not exist
(`full_path.exists()` false) or no entry matched. The file is modelled as
`Option String` (its content when it exists). -/
def readProperty (file : Option String) (key : String) : Option String :=
  match file with
  | none => none
  | some content => readPropLines key (splitLines (normNL content.data))

/-- `_update_property`'s per-line match test: the stripped line is nonempty,
does not start with `'#'`, contains `'='`, and the part before the first `'='`,
stripped, equals `key`. -/
def lineMatches (key : String) (l : List Char) : Bool :=
  let stripped := pyStrip l
  if stripped = [] then false
  else if stripped.headD ' ' = '#' then false
  else match splitFirst '=' stripped with
    | none => false
    | some (k, _) => String.mk (pyStrip k) = key

/-- The canonical replacement/append line `f"{key}={new_value}\n"`. -/
def entryLine (key newValue : String) : List Char :=
  (key ++ "=" ++ newValue ++ "\n").data

/-- The loop of `_update_property`: every matching line is replaced by the
canonical entry line; all other lines pass through unchanged; the boolean is
Python's `updated` flag (true iff some line matched). -/
def updLines (key newValue : String) : List (List Char) → List (List Char) × Bool
  | [] => ([], false)
  | l :: ls =>
    let rest := updLines key newValue ls
    if lineMatches key l then (entryLine key newValue :: rest.1, true)
    else (l :: rest.1, rest.2)

/-- `_update_property(file_path, key, new_value)` on existing file content:
read lines (text mode, so universal newlines), replace matching lines, append
`f"{key}={new_value}\n"` when nothing matched, write all lines back
(`f.writelines`, i.e. plain concatenation). -/
def updateProperty (content : String) (key newValue : String) : String :=
  let ls := splitLines (normNL content.data)
  let r := updLines key newValue ls
  let out := if r.2 then r.1 else r.1 ++ [entryLine key newValue]
  String.mk out.flatten

/-! ## Git workflow embedding

External git operations (fetch, pull, push, merge, …) and the filesystem are
modelled by an environment `Env` fixing their outcomes for one invocation of
`execute`.  Each embedded method returns the new object state `St`, the list of
effects it performed (`Eff`), and either a value or a raised exception `Exc`.
-/

/-- Result dataclass `UpdateResult`. -/
structure UpdateResult where
  success : Bool
  error : Option String := none
  updated : Bool := false
  branch_name : Option String := none
  deriving DecidableEq, Repr

/-- Naive timestamp as produced by `datetime.now()` / `datetime.utcnow()`. -/
structure DT where
  year : Nat
  month : Nat
  day : Nat
  hour : Nat
  minute : Nat
  second : Nat
  deriving DecidableEq, Repr

/-- Zero-pad to two digits (strftime `%m %d %H %M %S`). -/
def pad2 (n : Nat) : String :=
  if n < 10 then "0" ++ toString n else toString n

/-- Zero-pad to four digits (strftime `%Y`). -/
def pad4 (n : Nat) : String :=
  if n < 10 then "000" ++ toString n
  else if n < 100 then "00" ++ toString n
  else if n < 1000 then "0" ++ toString n
  else toString n

/-- `strftime("%Y%m%d-%H%M%S")`. -/
def fmtTS (t : DT) : String :=
  pad4 t.year ++ pad2 t.month ++ pad2 t.day ++ "-" ++
    pad2 t.hour ++ pad2 t.minute ++ pad2 t.second

/-- A `git.exc.GitCommandError`: its message, and whether `'CONFLICT' in str(e)`
holds (the substring test done at the merge step, modelled as a flag). -/
structure GitErr where
  msg : String
  conflict : Bool := false
  deriving DecidableEq, Repr

/-- Raised exceptions.  `gitCmd` is `GitCommandError` (the only class caught by
the `except GitCommandError` handlers); `generic` is a plain `Exception`;
`fileNotFound` is `FileNotFoundError`.  All are caught by `execute`'s final
`except Exception`. -/
inductive Exc
  | gitCmd (e : GitErr)
  | generic (msg : String)
  | fileNotFound (msg : String)
  deriving DecidableEq, Repr

/-- The message `str(e)` shown for an exception. -/
def Exc.msg : Exc → String
  | .gitCmd e => e.msg
  | .generic m => m
  | .fileNotFound m => m

/-- Observable effects of one invocation, in order.  `fileWrite` is the write
performed by `_update_property`; `clone`/`fetch`/`pullRebase` are the repo
synchronisation operations (a pull may change working-tree files, which is not
a `fileWrite` by this tool). -/
inductive Eff
  | clone
  | fetch
  | checkout (b : String)
  | pullRebase
  | stashPush
  | stashPop
  | fileWrite (content : String)
  | addAll
  | setRemoteUrl
  | branchCreate (b : String)
  | commit (msg : String)
  | push (b : String)
  | merge (b : String)
  | mergeAbort
  | checkoutDiscard
  | branchDelete (b : String)
  deriving DecidableEq, Repr

/-- Constructor-time configuration of `UpdateDbConnection`. -/
structure Cfg where
  repoUrl : String
  branch : String
  deriving DecidableEq, Repr

/-- Mutable object state: `self.repo` initialised, `self._original_branch`,
`self._stash_created`, plus the repository's currently checked-out branch. -/
structure St where
  repoInit : Bool
  originalBranch : Option String
  stashCreated : Bool
  active : String
  deriving DecidableEq, Repr

/-- Environment: outcomes of the external operations for this invocation.
`localNow` is what `datetime.now()` returns (local wall-clock time); `utcNow`
is the same instant in UTC (they differ by the machine's UTC offset).
`file` is the properties file of the synchronised working tree (`none` when it
does not exist).  `isDirtyAfterAdd` is `repo.is_dirty()` after `git add -A`.
`setUrl`, branch creation, `index.commit` and checkouts are modelled as
succeeding; push and merge outcomes are per-operation. -/
structure Env where
  gitDirExists : Bool
  activeBranchName : String
  isDirtyStart : Bool
  pullErr : Option GitErr := none
  cloneErr : Option GitErr := none
  file : Option String := none
  isDirtyAfterAdd : Bool := false
  pushFeatureErr : Option GitErr := none
  mergeErr : Option GitErr := none
  pushTargetErr : Option GitErr := none
  localNow : DT
  utcNow : DT
  deriving DecidableEq, Repr

/-- `_restore_stash`: pop the stash iff `self._stash_created` (a pop failure is
logged and swallowed, so it has no control effect), then clear the flag. -/
def restoreStash (s : St) : St × List Eff :=
  if s.stashCreated then ({ s with stashCreated := false }, [Eff.stashPop])
  else (s, [])

/-- `_stash_changes`: stash iff `repo.is_dirty(untracked_files=True)`. -/
def stashChanges (env : Env) (s : St) : St × List Eff :=
  if env.isDirtyStart then ({ s with stashCreated := true }, [Eff.stashPush])
  else (s, [])

/-- `_clone_or_pull`: pull path when `.git` exists (record original branch,
stash dirty changes, fetch, checkout target branch, pull --rebase; on
`GitCommandError` restore the stash and raise a plain
`Exception("Failed to pull: …")`), else clone path (on `GitCommandError` raise
`Exception("Failed to clone: …")`). -/
def cloneOrPull (cfg : Cfg) (env : Env) (s : St) : St × List Eff × Except Exc Unit :=
  if env.gitDirExists then
    let s1 : St := { s with repoInit := true, originalBranch := some env.activeBranchName,
                            active := env.activeBranchName }
    let r := stashChanges env s1
    match env.pullErr with
    | none =>
      ({ r.1 with active := cfg.branch },
       r.2 ++ [Eff.fetch, Eff.checkout cfg.branch, Eff.pullRebase], Except.ok ())
    | some g =>
      let r2 := restoreStash r.1
      (r2.1, r.2 ++ [Eff.fetch] ++ r2.2,
       Except.error (Exc.generic ("Failed to pull: " ++ g.msg)))
  else
    match env.cloneErr with
    | none =>
      ({ s with repoInit := true, active := cfg.branch }, [Eff.clone], Except.ok ())
    | some g =>
      (s, [], Except.error (Exc.generic ("Failed to clone: " ++ g.msg)))

/-- `_rollback(feature_branch)`: discard uncommitted changes, check out the
original branch (or the configured branch), delete the feature branch if one
was passed (errors swallowed), restore the stash.  Never raises. -/
def rollback (cfg : Cfg) (s : St) (featureBranch : Option String) : St × List Eff :=
  if s.repoInit then
    let back := match s.originalBranch with
      | some b => b
      | none => cfg.branch
    let s1 : St := { s with active := back }
    let delEffs := match featureBranch with
      | some b => [Eff.branchDelete b]
      | none => []
    let r := restoreStash s1
    (r.1, [Eff.checkoutDiscard, Eff.checkout back] ++ delEffs ++ r.2)
  else (s, [])

/-- `_commit_and_push(message, username, token, branch_prefix)`: stage all; if
nothing is dirty return `None`; else set the authenticated remote URL, create
and check out the feature branch named
`f"{branch_prefix}-{datetime.now().strftime('%Y%m%d-%H%M%S')}"`, commit, push
the feature branch, check out the target branch, merge (`--no-edit`); a merge
`GitCommandError` whose text contains `CONFLICT` triggers `merge --abort` and
raises a plain `Exception` (NOT a `GitCommandError`); any other
`GitCommandError` reaching the outer handler triggers `_rollback` and a plain
`Exception("Failed to commit/push: …")`; on success push the target branch and
return the feature branch name. -/
def commitAndPush (cfg : Cfg) (env : Env) (s : St) (msg : String) (auth : Bool)
    (branchPfx : String) : St × List Eff × Except Exc (Option String) :=
  if ¬ s.repoInit then
    (s, [], Except.error (Exc.generic "Repository not initialized"))
  else
    let e0 := [Eff.addAll]
    if ¬ env.isDirtyAfterAdd then (s, e0, Except.ok none)
    else
      let eAuth := if auth then [Eff.setRemoteUrl] else []
      let fb := branchPfx ++ "-" ++ fmtTS env.localNow
      let s1 : St := { s with active := fb }
      let eBr := e0 ++ eAuth ++ [Eff.branchCreate fb, Eff.commit msg]
      match env.pushFeatureErr with
      | some g =>
        let r := rollback cfg s1 (some fb)
        (r.1, eBr ++ [Eff.push fb] ++ r.2,
         Except.error (Exc.generic ("Failed to commit/push: " ++ g.msg)))
      | none =>
        let s2 : St := { s1 with active := cfg.branch }
        let eMid := eBr ++ [Eff.push fb, Eff.checkout cfg.branch]
        match env.mergeErr with
        | some g =>
          if g.conflict then
            (s2, eMid ++ [Eff.merge fb, Eff.mergeAbort],
             Except.error (Exc.generic "Merge conflict - manual resolution required"))
          else
            let r := rollback cfg s2 (some fb)
            (r.1, eMid ++ [Eff.merge fb] ++ r.2,
             Except.error (Exc.generic ("Failed to commit/push: " ++ g.msg)))
        | none =>
          match env.pushTargetErr with
          | some g =>
            let r := rollback cfg s2 (some fb)
            (r.1, eMid ++ [Eff.merge fb, Eff.push cfg.branch] ++ r.2,
             Except.error (Exc.generic ("Failed to commit/push: " ++ g.msg)))
          | none =>
            (s2, eMid ++ [Eff.merge fb, Eff.push cfg.branch], Except.ok (some fb))

/-- `execute(properties_file, property_key, new_value, username, token,
branch_prefix, dry_run)`: clone-or-pull, read the current value, no-op when it
equals the new value, dry-run exit, else update the file, commit-and-push,
restore the stash; any exception is caught, the stash restored, and a failure
result returned.  `auth` models `username and token` being truthy. -/
def execute (cfg : Cfg) (env : Env) (propertiesFile key newValue : String) (auth : Bool)
    (branchPfx : String) (dryRun : Bool) : St × List Eff × UpdateResult :=
  let s0 : St := { repoInit := false, originalBranch := none,
                   stashCreated := false, active := env.activeBranchName }
  match cloneOrPull cfg env s0 with
  | (s, e, Except.error exc) =>
    let r := restoreStash s
    (r.1, e ++ r.2, { success := false, error := some exc.msg })
  | (s, e, Except.ok ()) =>
    if readProperty env.file key = some newValue then
      let r := restoreStash s
      (r.1, e ++ r.2, { success := true, updated := false })
    else if dryRun then
      let r := restoreStash s
      (r.1, e ++ r.2, { success := true, updated := false })
    else
      match env.file with
      | none =>
        let r := restoreStash s
        (r.1, e ++ r.2,
         { success := false, error := some "File not found" })
      | some content =>
        let newContent := updateProperty content key newValue
        let eW := [Eff.fileWrite newContent]
        let msg := "Update " ++ key ++ " in " ++ propertiesFile
        match commitAndPush cfg env s msg auth branchPfx with
        | (s2, e2, Except.ok bn) =>
          let r := restoreStash s2
          (r.1, e ++ eW ++ e2 ++ r.2,
           { success := true, updated := true, branch_name := bn })
        | (s2, e2, Except.error exc) =>
          let r := restoreStash s2
          (r.1, e ++ eW ++ e2 ++ r.2,
           { success := false, error := some exc.msg })

/-- The effect trace of an invocation. -/
def trace (cfg : Cfg) (env : Env) (propertiesFile key newValue : String) (auth : Bool)
    (branchPfx : String) (dryRun : Bool) : List Eff :=
  (execute cfg env propertiesFile key newValue auth branchPfx dryRun).2.1

/-- The result of an invocation. -/
def result (cfg : Cfg) (env : Env) (propertiesFile key newValue : String) (auth : Bool)
    (branchPfx : String) (dryRun : Bool) : UpdateResult :=
  (execute cfg env propertiesFile key newValue auth branchPfx dryRun).2.2

/-- The final object/repository state of an invocation. -/
def finalSt (cfg : Cfg) (env : Env) (propertiesFile key newValue : String) (auth : Bool)
    (branchPfx : String) (dryRun : Bool) : St :=
  (execute cfg env propertiesFile key newValue auth branchPfx dryRun).1

/-! ## Helper lemmas about the PropertiesStore embedding -/

/-- `splitFirst` finds nothing exactly when the separator does not occur. -/
lemma splitFirst_eq_none_iff (sep : Char) :
    ∀ cs : List Char, splitFirst sep cs = none ↔ sep ∉ cs := by
  intro cs
  induction cs with
  | nil => simp [splitFirst]
  | cons c cs ih =>
    by_cases h : c = sep
    · subst h; simp [splitFirst]
    · simp only [splitFirst, if_neg h, List.mem_cons]
      cases hs : splitFirst sep cs with
      | none =>
        have hn : sep ∉ cs := ih.mp hs
        have hne : ¬sep = c := fun x => h x.symm
        simp [hn, hne]
      | some p =>
        obtain ⟨a, b⟩ := p
        have hin : sep ∈ cs := by
          by_contra hn
          rw [ih.mpr hn] at hs
          exact Option.noConfusion hs
        simp [hin]

/-- The full characterization of `_update_property`'s loop: every matching
line is replaced by the canonical entry line, every other line is passed
through unchanged, and the `updated` flag is set iff some line matched. -/
lemma updLines_eq (key newValue : String) :
    ∀ ls : List (List Char),
      updLines key newValue ls =
        (ls.map (fun l => if lineMatches key l then entryLine key newValue else l),
         ls.any (lineMatches key)) := by
  intro ls
  induction ls with
  | nil => simp [updLines]
  | cons l ls ih =>
    by_cases h : lineMatches key l <;> simp [updLines, ih, h]

/-- Re-joining the lines produced by `splitLinesAux` recovers the input. -/
lemma splitLinesAux_flatten :
    ∀ (cs acc : List Char), (splitLinesAux acc cs).flatten = acc.reverse ++ cs := by
  intro cs
  induction cs with
  | nil =>
    intro acc
    by_cases h : acc = [] <;> simp [splitLinesAux, h]
  | cons c cs ih =>
    intro acc
    by_cases h : c = '\n'
    · subst h
      simp [splitLinesAux, ih]
    · simp [splitLinesAux, h, ih]

/-- Re-joining the lines of a file recovers its content: the line split loses
nothing (including a final segment with no trailing newline). -/
lemma flatten_splitLines (cs : List Char) : (splitLines cs).flatten = cs := by
  simpa using splitLinesAux_flatten cs []

/-- A line whose stripped form contains no `'='` produces nothing on read and
never matches on update. -/
lemma no_eq_sep_line (key : String) (l : List Char) (h : '=' ∉ pyStrip l) :
    readLine key l = none ∧ lineMatches key l = false := by
  have hs : splitFirst '=' (pyStrip l) = none := (splitFirst_eq_none_iff '=' _).mpr h
  constructor
  · unfold readLine
    by_cases h0 : pyStrip l = [] <;> simp [h0, hs]
  · unfold lineMatches
    by_cases h0 : pyStrip l = [] <;> simp [h0, hs]

/-- `List.getD` through a map that fixes the default element. -/
lemma getD_map_fix (f : List Char → List Char) (hf : f [] = []) :
    ∀ (ls : List (List Char)) (i : Nat), (ls.map f).getD i [] = f (ls.getD i []) := by
  intro ls
  induction ls with
  | nil => intro i; simp [List.getD, hf]
  | cons l ls ih =>
    intro i
    cases i with
    | zero => simp
    | succ j => simpa using ih j

/-! ## Claim theorems: PropertiesStore (C4–C8) -/

/-- C4, counterexample.  The claim says a line `x: 5` is read with key `x`,
value `5`, and that updating `x` rewrites that line as `x=6`.  The code splits
only on `'='` (`':'` is not a separator): the read returns nothing for that
file, and the update leaves the line alone and appends a fresh `x=6` line. -/
theorem C4_colon_separator_cex :
    readProperty (some "x: 5\n") "x" ≠ some "5" ∧
    updateProperty "x: 5\n" "x" "6" ≠ "x=6\n" ∧
    readProperty (some "x: 5\n") "x" = none ∧
    updateProperty "x: 5\n" "x" "6" = "x: 5\nx=6\n" := by
  refine ⟨by decide, by decide, by decide, by decide⟩

/-- C4, amended: only `'='` is recognised as a key/value separator (`':'` is
not).  A line whose stripped form contains no `'='` — such as `x: 5` — is
never read as an entry and never matched by an update: reading returns absent
and updating appends a fresh canonical `x=6` line, leaving `x: 5` unchanged.
For `'='`-separated lines the first `'='` splits into trimmed key and trimmed
value, and an update rewrites the line with the canonical `=` separator. -/
theorem C4_only_eq_separator (key : String) (l : List Char) (h : '=' ∉ pyStrip l) :
    readLine key l = none ∧
    lineMatches key l = false ∧
    readProperty (some "x: 5\n") "x" = none ∧
    updateProperty "x: 5\n" "x" "6" = "x: 5\nx=6\n" ∧
    readProperty (some "x = 5\n") "x" = some "5" ∧
    updateProperty "x = 5\n" "x" "6" = "x=6\n" := by
  obtain ⟨h1, h2⟩ := no_eq_sep_line key l h
  exact ⟨h1, h2, by decide, by decide, by decide, by decide⟩

/-- C4, witness for the amended theorem at a concrete line. -/
theorem C4_only_eq_separator_witness :
    readLine "x" "x: 5\n".data = none ∧ lineMatches "x" "x: 5\n".data = false :=
  ⟨(C4_only_eq_separator "x" "x: 5\n".data (by decide)).1,
   (C4_only_eq_separator "x" "x: 5\n".data (by decide)).2.1⟩

/-- C5: updating an existing key passes every non-matching line (comments and
blanks included) through unchanged — the i-th output line of the rewrite loop
equals the i-th input line whenever that line does not match — and on the
spec's concrete file `a=1\n#comment\nb=2\n` updating `b` to `9` yields exactly
`a=1\n#comment\nb=9\n`. -/
theorem C5_passthrough (key newValue : String) (ls : List (List Char)) (i : Nat)
    (h : lineMatches key (ls.getD i []) = false) :
    (updLines key newValue ls).1.getD i [] = ls.getD i [] ∧
    updateProperty "a=1\n#comment\nb=2\n" "b" "9" = "a=1\n#comment\nb=9\n" := by
  constructor
  · rw [updLines_eq]
    rw [show (List.map (fun l => if lineMatches key l then entryLine key newValue else l) ls,
          ls.any (lineMatches key)).1 =
        List.map (fun l => if lineMatches key l then entryLine key newValue else l) ls from rfl]
    rw [getD_map_fix (fun l => if lineMatches key l then entryLine key newValue else l)
        (by simp [lineMatches, pyStrip]) ls i]
    simp only [List.getD, List.get?_eq_getElem?] at h ⊢
    simp [h]
  · decide

/-- C5, witness: the comment line of the concrete file is untouched. -/
theorem C5_passthrough_witness :
    (updLines "b" "9" (splitLines "a=1\n#comment\nb=2\n".data)).1.getD 1 [] =
      (splitLines "a=1\n#comment\nb=2\n".data).getD 1 [] :=
  (C5_passthrough "b" "9" (splitLines "a=1\n#comment\nb=2\n".data) 1 (by decide)).1

/-- C6, counterexample.  The claim says appending a new key works "also when
the existing file content lacks a trailing newline".  It does not: the
appended entry is concatenated onto the unterminated last line. -/
theorem C6_append_no_trailing_newline_cex :
    updateProperty "a=1" "c" "2" ≠ "a=1\nc=2\n" ∧
    updateProperty "a=1" "c" "2" = "a=1c=2\n" := by
  refine ⟨by decide, by decide⟩

/-- C6, amended: when the key is absent from the file, the update appends the
canonical entry directly after the (newline-normalised) content:
`a=1\n` becomes `a=1\nc=2\n` (an own final line), but content lacking a
trailing newline has the entry concatenated onto its last line
(`a=1` becomes `a=1c=2\n`). -/
theorem C6_append_absent_key (content key newValue : String)
    (h : (splitLines (normNL content.data)).any (lineMatches key) = false) :
    updateProperty content key newValue =
      String.mk (normNL content.data ++ entryLine key newValue) ∧
    updateProperty "a=1\n" "c" "2" = "a=1\nc=2\n" ∧
    updateProperty "a=1" "c" "2" = "a=1c=2\n" := by
  refine ⟨?_, by decide, by decide⟩
  have hall : ∀ l ∈ splitLines (normNL content.data), lineMatches key l = false := by
    intro l hl
    by_contra hc
    have : (splitLines (normNL content.data)).any (lineMatches key) = true :=
      List.any_eq_true.mpr ⟨l, hl, by revert hc; cases lineMatches key l <;> simp⟩
    rw [this] at h
    exact Bool.noConfusion h
  have hmap : (splitLines (normNL content.data)).map
      (fun l => if lineMatches key l then entryLine key newValue else l) =
      splitLines (normNL content.data) := by
    conv_rhs => rw [← List.map_id (splitLines (normNL content.data))]
    exact List.map_congr_left fun a ha => by simp [hall a ha]
  simp only [updateProperty]
  rw [updLines_eq]
  simp only [h, hmap, Bool.false_eq_true, if_false]
  rw [List.flatten_append]
  simp [flatten_splitLines]

/-- C6, witness for the amended theorem at a concrete absent-key update. -/
theorem C6_append_absent_key_witness :
    updateProperty "a=1\n" "c" "2" =
      String.mk (normNL "a=1\n".data ++ entryLine "c" "2") :=
  (C6_append_absent_key "a=1\n" "c" "2" (by decide)).1

/-- C7, counterexample.  The claim says lines starting (after trim) with `'#'`
OR with `'!'` are comments from which the read never returns a key/value.  The
code only recognises `'#'`: on the file `!x=1\n` the read parses the
`'!'`-line and returns the value `1` for key `!x`. -/
theorem C7_bang_comment_cex :
    readProperty (some "!x=1\n") "!x" = some "1" := by decide

/-- C7, amended: only `'#'` marks a comment — every line whose stripped form
starts with `'#'` is skipped by the read scan — while a line starting with
`'!'` is parsed as an ordinary line (on `!x=1\n` the read returns `1` for the
key `!x`). -/
theorem C7_hash_comment_only (key : String) (l : List Char) (ls : List (List Char))
    (h : (pyStrip l).headD ' ' = '#') :
    readPropLines key (l :: ls) = readPropLines key ls ∧
    readProperty (some "!x=1\n") "!x" = some "1" := by
  refine ⟨?_, by decide⟩
  have hr : readLine key l = none := by
    unfold readLine
    cases hp : pyStrip l with
    | nil => simp [hp]
    | cons a as =>
      rw [hp] at h
      simp only [List.headD_cons] at h
      simp [hp, h]
  simp [readPropLines, hr]

/-- C7, witness for the amended theorem on a concrete comment line. -/
theorem C7_hash_comment_only_witness :
    readPropLines "a" [" # a=1\n".data, "a=2\n".data] = readPropLines "a" ["a=2\n".data] :=
  (C7_hash_comment_only "a" " # a=1\n".data ["a=2\n".data] (by decide)).1

/-- C8, counterexample.  The claim says only the FIRST occurrence of a
duplicated key is rewritten and later duplicates pass through unchanged.  The
code rewrites every matching line: on `b=1\nb=2\n`, updating `b` to `9` yields
`b=9\nb=9\n`, not `b=9\nb=2\n`. -/
theorem C8_duplicate_keys_cex :
    updateProperty "b=1\nb=2\n" "b" "9" ≠ "b=9\nb=2\n" ∧
    updateProperty "b=1\nb=2\n" "b" "9" = "b=9\nb=9\n" := by
  refine ⟨by decide, by decide⟩

/-- C8, amended: an update rewrites EVERY line whose key matches, not only the
first: the rewrite loop maps each matching line to the canonical entry line
and keeps all others, and on `b=1\nb=2\n` updating `b` to `9` yields
`b=9\nb=9\n`. -/
theorem C8_update_rewrites_all_occurrences (key newValue : String) (ls : List (List Char)) :
    (updLines key newValue ls).1 =
      ls.map (fun l => if lineMatches key l then entryLine key newValue else l) ∧
    (updLines key newValue ls).2 = ls.any (lineMatches key) ∧
    updateProperty "b=1\nb=2\n" "b" "9" = "b=9\nb=9\n" := by
  refine ⟨?_, ?_, by decide⟩
  · rw [updLines_eq]
  · rw [updLines_eq]

/-! ## Helper lemmas about the workflow embedding -/

/-- When the repository synchronisation succeeds (pull does not fail on the
pull path, clone does not fail on the clone path), `_clone_or_pull` returns
`ok` with a trace containing only synchronisation effects: no commit, no
branch creation, no file write, no branch deletion, no working-tree discard,
and a stash push only when the resulting state records a created stash.  The
resulting state has the repository initialised and is not mid-stash-restore. -/
lemma cloneOrPull_ok (cfg : Cfg) (env : Env) (s : St)
    (h1 : env.gitDirExists = true → env.pullErr = none)
    (h2 : env.gitDirExists = false → env.cloneErr = none) :
    ∃ (s' : St) (e : List Eff),
      cloneOrPull cfg env s = (s', e, Except.ok ()) ∧
      (∀ m, Eff.commit m ∉ e) ∧
      (∀ b, Eff.branchCreate b ∉ e) ∧
      (∀ c, Eff.fileWrite c ∉ e) ∧
      (∀ b, Eff.branchDelete b ∉ e) ∧
      Eff.checkoutDiscard ∉ e ∧
      Eff.mergeAbort ∉ e ∧
      (Eff.stashPush ∈ e → s'.stashCreated = true) ∧
      s'.repoInit = true := by
  cases hg : env.gitDirExists with
  | true =>
    have hp := h1 hg
    cases hd : env.isDirtyStart with
    | true =>
      refine ⟨⟨true, some env.activeBranchName, true, cfg.branch⟩,
        [Eff.stashPush, Eff.fetch, Eff.checkout cfg.branch, Eff.pullRebase], ?_, ?_⟩
      · simp [cloneOrPull, hg, hp, stashChanges, hd]
      · simp
    | false =>
      refine ⟨⟨true, some env.activeBranchName, s.stashCreated, cfg.branch⟩,
        [Eff.fetch, Eff.checkout cfg.branch, Eff.pullRebase], ?_, ?_⟩
      · simp [cloneOrPull, hg, hp, stashChanges, hd]
      · simp
  | false =>
    have hc := h2 hg
    refine ⟨⟨true, s.originalBranch, s.stashCreated, cfg.branch⟩, [Eff.clone], ?_, ?_⟩
    · simp [cloneOrPull, hg, hc]
    · simp

/-- `_restore_stash` emits at most a stash pop. -/
lemma restoreStash_effs (s : St) :
    (restoreStash s).2 = if s.stashCreated then [Eff.stashPop] else [] := by
  by_cases h : s.stashCreated = true
  · simp [restoreStash, h]
  · simp only [Bool.not_eq_true] at h
    simp [restoreStash, h]

/-- `_rollback` never creates a branch. -/
lemma rollback_no_branchCreate (cfg : Cfg) (s : St) (fb : Option String) (b : String) :
    Eff.branchCreate b ∉ (rollback cfg s fb).2 := by
  cases hri : s.repoInit with
  | false => simp [rollback, hri]
  | true =>
    cases ho : s.originalBranch <;> cases hsc : s.stashCreated <;> cases fb <;>
      simp [rollback, restoreStash, hri, ho, hsc]

/-- On the dirty-after-staging path, `_commit_and_push` creates exactly one
branch, named `{branch_prefix}-{local timestamp}` — whatever the push/merge
outcomes are. -/
lemma commitAndPush_branchCreate (cfg : Cfg) (env : Env) (s : St) (msg : String)
    (auth : Bool) (bp : String) (hri : s.repoInit = true)
    (hd : env.isDirtyAfterAdd = true) (b : String) :
    Eff.branchCreate b ∈ (commitAndPush cfg env s msg auth bp).2.1 ↔
      b = bp ++ "-" ++ fmtTS env.localNow := by
  have hrb := fun s fb => rollback_no_branchCreate cfg s fb b
  unfold commitAndPush
  rcases hpf : env.pushFeatureErr with _ | g1
  · rcases hm : env.mergeErr with _ | g2
    · rcases hpt : env.pushTargetErr with _ | g3 <;>
        cases auth <;> simp [hri, hd, hpf, hm, hpt, hrb, eq_comm]
    · by_cases hc : g2.conflict = true <;>
        cases auth <;> simp [hri, hd, hpf, hm, hc, hrb, eq_comm]
  · cases auth <;> simp [hri, hd, hpf, hrb, eq_comm]

/-- On the merge-conflict path, `_commit_and_push` aborts the merge and raises
a plain `Exception` — which the `except GitCommandError` handler does NOT
catch, so `_rollback` is never invoked: the trace it returns contains no
working-tree discard and no branch deletion, and the state stays on the target
branch with the stash flag untouched. -/
lemma commitAndPush_conflict (cfg : Cfg) (env : Env) (s : St) (msg : String)
    (auth : Bool) (bp : String) (g : GitErr)
    (hri : s.repoInit = true) (hd : env.isDirtyAfterAdd = true)
    (hpf : env.pushFeatureErr = none) (hm : env.mergeErr = some g)
    (hc : g.conflict = true) :
    commitAndPush cfg env s msg auth bp =
      ({ s with active := cfg.branch },
       [Eff.addAll] ++ (if auth then [Eff.setRemoteUrl] else []) ++
         [Eff.branchCreate (bp ++ "-" ++ fmtTS env.localNow), Eff.commit msg,
          Eff.push (bp ++ "-" ++ fmtTS env.localNow), Eff.checkout cfg.branch,
          Eff.merge (bp ++ "-" ++ fmtTS env.localNow), Eff.mergeAbort],
       Except.error (Exc.generic "Merge conflict - manual resolution required")) := by
  cases auth <;> simp [commitAndPush, hri, hd, hpf, hm, hc]

/-! ## Claim theorems: workflow (C1–C3, C9, C10) -/

/-- C1: whenever the repository synchronisation succeeds and the value read
from the properties file for the target key equals the new value exactly,
`execute` returns `success = true, updated = false`, creates no commit, no
branch and no file write, and restores any stash (the final state records no
outstanding stash, and a stash push in the trace is matched by a stash pop). -/
theorem C1_noop_when_value_unchanged (cfg : Cfg) (env : Env)
    (pf key newValue bp : String) (auth dryRun : Bool)
    (hsync1 : env.gitDirExists = true → env.pullErr = none)
    (hsync2 : env.gitDirExists = false → env.cloneErr = none)
    (hval : readProperty env.file key = some newValue) :
    result cfg env pf key newValue auth bp dryRun =
      { success := true, error := none, updated := false, branch_name := none } ∧
    (∀ m, Eff.commit m ∉ trace cfg env pf key newValue auth bp dryRun) ∧
    (∀ b, Eff.branchCreate b ∉ trace cfg env pf key newValue auth bp dryRun) ∧
    (∀ c, Eff.fileWrite c ∉ trace cfg env pf key newValue auth bp dryRun) ∧
    (finalSt cfg env pf key newValue auth bp dryRun).stashCreated = false ∧
    (Eff.stashPush ∈ trace cfg env pf key newValue auth bp dryRun →
      Eff.stashPop ∈ trace cfg env pf key newValue auth bp dryRun) := by
  obtain ⟨s', e, heq, hnc, hnb, hnw, hnd, hncd, hnma, hstash, hri⟩ :=
    cloneOrPull_ok cfg env ⟨false, none, false, env.activeBranchName⟩ hsync1 hsync2
  unfold result trace finalSt execute
  simp only [heq]
  by_cases hsc : s'.stashCreated = true
  · simp [hval, restoreStash, hsc, hnc, hnb, hnw]
  · simp only [Bool.not_eq_true] at hsc
    simp [hval, restoreStash, hsc, hnc, hnb, hnw]
    intro hpush
    exact absurd (hstash hpush) (by simp [hsc])

/-- C1, witness: a concrete dirty-repository environment whose file already
holds the new value. -/
theorem C1_noop_when_value_unchanged_witness :
    result ⟨"https://github.com/u/r.git", "main"⟩
      ⟨true, "dev", true, none, none, some "db.url=jdbc:x\n", false, none, none, none,
        ⟨2026, 1, 1, 12, 0, 0⟩, ⟨2026, 1, 1, 17, 0, 0⟩⟩
      "c.properties" "db.url" "jdbc:x" true "db-update" false =
      { success := true, error := none, updated := false, branch_name := none } :=
  (C1_noop_when_value_unchanged ⟨"https://github.com/u/r.git", "main"⟩
    ⟨true, "dev", true, none, none, some "db.url=jdbc:x\n", false, none, none, none,
      ⟨2026, 1, 1, 12, 0, 0⟩, ⟨2026, 1, 1, 17, 0, 0⟩⟩
    "c.properties" "db.url" "jdbc:x" "db-update" true false
    (fun _ => rfl) (fun h => Bool.noConfusion h) (by decide)).1

/-- C2: whenever the repository synchronisation succeeds, the current value
differs from the new value and `dry_run` is set, `execute` performs no file
write, no commit and no branch creation, and returns
`success = true, updated = false`. -/
theorem C2_dry_run_never_mutates (cfg : Cfg) (env : Env)
    (pf key newValue bp : String) (auth : Bool)
    (hsync1 : env.gitDirExists = true → env.pullErr = none)
    (hsync2 : env.gitDirExists = false → env.cloneErr = none)
    (hval : readProperty env.file key ≠ some newValue) :
    result cfg env pf key newValue auth bp true =
      { success := true, error := none, updated := false, branch_name := none } ∧
    (∀ c, Eff.fileWrite c ∉ trace cfg env pf key newValue auth bp true) ∧
    (∀ m, Eff.commit m ∉ trace cfg env pf key newValue auth bp true) ∧
    (∀ b, Eff.branchCreate b ∉ trace cfg env pf key newValue auth bp true) ∧
    (finalSt cfg env pf key newValue auth bp true).stashCreated = false := by
  obtain ⟨s', e, heq, hnc, hnb, hnw, hnd, hncd, hnma, hstash, hri⟩ :=
    cloneOrPull_ok cfg env ⟨false, none, false, env.activeBranchName⟩ hsync1 hsync2
  unfold result trace finalSt execute
  simp only [heq]
  by_cases hsc : s'.stashCreated = true
  · simp [hval, restoreStash, hsc, hnc, hnb, hnw]
  · simp only [Bool.not_eq_true] at hsc
    simp [hval, restoreStash, hsc, hnc, hnb, hnw]

/-- C2, witness: a concrete dry-run invocation with a differing value. -/
theorem C2_dry_run_never_mutates_witness :
    result ⟨"https://github.com/u/r.git", "main"⟩
      ⟨true, "dev", false, none, none, some "db.url=jdbc:x\n", false, none, none, none,
        ⟨2026, 1, 1, 12, 0, 0⟩, ⟨2026, 1, 1, 17, 0, 0⟩⟩
      "c.properties" "db.url" "jdbc:y" true "db-update" true =
      { success := true, error := none, updated := false, branch_name := none } :=
  (C2_dry_run_never_mutates ⟨"https://github.com/u/r.git", "main"⟩
    ⟨true, "dev", false, none, none, some "db.url=jdbc:x\n", false, none, none, none,
      ⟨2026, 1, 1, 12, 0, 0⟩, ⟨2026, 1, 1, 17, 0, 0⟩⟩
    "c.properties" "db.url" "jdbc:y" "db-update" true
    (fun _ => rfl) (fun h => Bool.noConfusion h) (by decide)).1

/-- C10: when the non-dry-run update path is taken (synchronisation succeeds,
the file exists, the current value differs) but after staging the working tree
holds no change relative to the last commit, `execute` makes no commit and
creates no branch, yet returns `success = true, updated = true` with
`branch_name = none`. -/
theorem C10_clean_after_staging (cfg : Cfg) (env : Env)
    (pf key newValue bp content : String) (auth : Bool)
    (hsync1 : env.gitDirExists = true → env.pullErr = none)
    (hsync2 : env.gitDirExists = false → env.cloneErr = none)
    (hfile : env.file = some content)
    (hval : readProperty env.file key ≠ some newValue)
    (hclean : env.isDirtyAfterAdd = false) :
    result cfg env pf key newValue auth bp false =
      { success := true, error := none, updated := true, branch_name := none } ∧
    (∀ m, Eff.commit m ∉ trace cfg env pf key newValue auth bp false) ∧
    (∀ b, Eff.branchCreate b ∉ trace cfg env pf key newValue auth bp false) := by
  obtain ⟨s', e, heq, hnc, hnb, hnw, hnd, hncd, hnma, hstash, hri⟩ :=
    cloneOrPull_ok cfg env ⟨false, none, false, env.activeBranchName⟩ hsync1 hsync2
  unfold result trace execute
  simp only [heq]
  have hcp : commitAndPush cfg env s' ("Update " ++ key ++ " in " ++ pf) auth bp =
      (s', [Eff.addAll], Except.ok none) := by
    simp [commitAndPush, hri, hclean]
  rw [hfile] at hval
  by_cases hsc : s'.stashCreated = true
  · simp [hval, hfile, hcp, restoreStash, hsc, hnc, hnb]
  · simp only [Bool.not_eq_true] at hsc
    simp [hval, hfile, hcp, restoreStash, hsc, hnc, hnb]

/-- C10, witness: a concrete clean-after-staging environment. -/
theorem C10_clean_after_staging_witness :
    result ⟨"https://github.com/u/r.git", "main"⟩
      ⟨false, "main", false, none, none, some "db.url=jdbc:x\n", false, none, none, none,
        ⟨2026, 1, 1, 12, 0, 0⟩, ⟨2026, 1, 1, 17, 0, 0⟩⟩
      "c.properties" "db.url" "jdbc:y" true "db-update" false =
      { success := true, error := none, updated := true, branch_name := none } :=
  (C10_clean_after_staging ⟨"https://github.com/u/r.git", "main"⟩
    ⟨false, "main", false, none, none, some "db.url=jdbc:x\n", false, none, none, none,
      ⟨2026, 1, 1, 12, 0, 0⟩, ⟨2026, 1, 1, 17, 0, 0⟩⟩
    "c.properties" "db.url" "jdbc:y" "db-update" "db.url=jdbc:x\n" true
    (fun h => Bool.noConfusion h) (fun _ => rfl) rfl (by decide) rfl).1

/-- C3, counterexample.  The claim says a merge conflict triggers the full
rollback (discard, checkout of pre-transaction branch, feature-branch
deletion, stash restore).  On a concrete conflicting run the merge is aborted
and the invocation fails with the merge-conflict error, but the created
feature branch is never deleted and no working-tree discard happens: the
conflict path raises a plain `Exception`, which the `except GitCommandError`
handler does not catch, so `_rollback` never runs. -/
theorem C3_merge_conflict_rollback_cex :
    result ⟨"https://github.com/u/r.git", "main"⟩
      ⟨false, "main", false, none, none, some "db.url=jdbc:x\n", true, none,
        some ⟨"merge boom CONFLICT", true⟩, none,
        ⟨2026, 1, 1, 12, 0, 0⟩, ⟨2026, 1, 1, 17, 0, 0⟩⟩
      "c.properties" "db.url" "jdbc:y" true "db-update" false =
      { success := false, error := some "Merge conflict - manual resolution required",
        updated := false, branch_name := none } ∧
    Eff.mergeAbort ∈ trace ⟨"https://github.com/u/r.git", "main"⟩
      ⟨false, "main", false, none, none, some "db.url=jdbc:x\n", true, none,
        some ⟨"merge boom CONFLICT", true⟩, none,
        ⟨2026, 1, 1, 12, 0, 0⟩, ⟨2026, 1, 1, 17, 0, 0⟩⟩
      "c.properties" "db.url" "jdbc:y" true "db-update" false ∧
    Eff.branchCreate "db-update-20260101-120000" ∈ trace ⟨"https://github.com/u/r.git", "main"⟩
      ⟨false, "main", false, none, none, some "db.url=jdbc:x\n", true, none,
        some ⟨"merge boom CONFLICT", true⟩, none,
        ⟨2026, 1, 1, 12, 0, 0⟩, ⟨2026, 1, 1, 17, 0, 0⟩⟩
      "c.properties" "db.url" "jdbc:y" true "db-update" false ∧
    Eff.branchDelete "db-update-20260101-120000" ∉ trace ⟨"https://github.com/u/r.git", "main"⟩
      ⟨false, "main", false, none, none, some "db.url=jdbc:x\n", true, none,
        some ⟨"merge boom CONFLICT", true⟩, none,
        ⟨2026, 1, 1, 12, 0, 0⟩, ⟨2026, 1, 1, 17, 0, 0⟩⟩
      "c.properties" "db.url" "jdbc:y" true "db-update" false ∧
    Eff.checkoutDiscard ∉ trace ⟨"https://github.com/u/r.git", "main"⟩
      ⟨false, "main", false, none, none, some "db.url=jdbc:x\n", true, none,
        some ⟨"merge boom CONFLICT", true⟩, none,
        ⟨2026, 1, 1, 12, 0, 0⟩, ⟨2026, 1, 1, 17, 0, 0⟩⟩
      "c.properties" "db.url" "jdbc:y" true "db-update" false := by
  refine ⟨by decide, by decide, by decide, by decide, by decide⟩

/-- C3, amended: whenever the merge of the feature branch into the target
branch reports a conflict, the system aborts the merge and fails with the
merge-conflict error, never attempting automatic conflict resolution, and
restores any stash — but it does NOT run the full rollback: no uncommitted
changes are discarded, the feature branch is not deleted, and the repository
is left on the TARGET branch rather than the pre-transaction branch (the
conflict path raises a plain `Exception` that the `except GitCommandError`
rollback handler does not catch). -/
theorem C3_merge_conflict_aborts_without_rollback (cfg : Cfg) (env : Env)
    (pf key newValue bp content : String) (auth : Bool) (g : GitErr)
    (hsync1 : env.gitDirExists = true → env.pullErr = none)
    (hsync2 : env.gitDirExists = false → env.cloneErr = none)
    (hfile : env.file = some content)
    (hval : readProperty env.file key ≠ some newValue)
    (hd : env.isDirtyAfterAdd = true)
    (hpf : env.pushFeatureErr = none)
    (hm : env.mergeErr = some g) (hc : g.conflict = true) :
    result cfg env pf key newValue auth bp false =
      { success := false, error := some "Merge conflict - manual resolution required",
        updated := false, branch_name := none } ∧
    Eff.merge (bp ++ "-" ++ fmtTS env.localNow) ∈ trace cfg env pf key newValue auth bp false ∧
    Eff.mergeAbort ∈ trace cfg env pf key newValue auth bp false ∧
    (∀ b, Eff.branchDelete b ∉ trace cfg env pf key newValue auth bp false) ∧
    Eff.checkoutDiscard ∉ trace cfg env pf key newValue auth bp false ∧
    (finalSt cfg env pf key newValue auth bp false).active = cfg.branch ∧
    (finalSt cfg env pf key newValue auth bp false).stashCreated = false ∧
    (Eff.stashPush ∈ trace cfg env pf key newValue auth bp false →
      Eff.stashPop ∈ trace cfg env pf key newValue auth bp false) := by
  obtain ⟨s', e, heq, hnc, hnb, hnw, hnd, hncd, hnma, hstash, hri⟩ :=
    cloneOrPull_ok cfg env ⟨false, none, false, env.activeBranchName⟩ hsync1 hsync2
  have hcp := commitAndPush_conflict cfg env s' ("Update " ++ key ++ " in " ++ pf)
    auth bp g hri hd hpf hm hc
  unfold result trace finalSt execute
  simp only [heq]
  rw [hfile] at hval
  by_cases hsc : s'.stashCreated = true
  · cases auth <;> simp [hval, hfile, hcp, restoreStash, hsc, hnd, hncd, Exc.msg]
  · simp only [Bool.not_eq_true] at hsc
    cases auth <;> simp [hval, hfile, hcp, restoreStash, hsc, hnd, hncd, Exc.msg] <;>
      · intro hpush
        exact absurd (hstash hpush) (by simp [hsc])

/-- C3, witness for the amended theorem at the concrete conflicting run. -/
theorem C3_merge_conflict_aborts_without_rollback_witness :
    result ⟨"https://github.com/u/r.git", "main"⟩
      ⟨false, "main", false, none, none, some "db.url=jdbc:x\n", true, none,
        some ⟨"merge boom CONFLICT", true⟩, none,
        ⟨2026, 1, 1, 12, 0, 0⟩, ⟨2026, 1, 1, 17, 0, 0⟩⟩
      "c.properties" "db.url" "jdbc:y" true "db-update" false =
      { success := false, error := some "Merge conflict - manual resolution required",
        updated := false, branch_name := none } :=
  (C3_merge_conflict_aborts_without_rollback ⟨"https://github.com/u/r.git", "main"⟩
    ⟨false, "main", false, none, none, some "db.url=jdbc:x\n", true, none,
      some ⟨"merge boom CONFLICT", true⟩, none,
      ⟨2026, 1, 1, 12, 0, 0⟩, ⟨2026, 1, 1, 17, 0, 0⟩⟩
    "c.properties" "db.url" "jdbc:y" "db-update" "db.url=jdbc:x\n" true
    ⟨"merge boom CONFLICT", true⟩
    (fun h => Bool.noConfusion h) (fun _ => rfl) rfl (by decide) rfl rfl rfl rfl).1

/-- C9, counterexample.  The claim says the feature branch timestamp is the
UTC time of creation.  The code formats `datetime.now()` — local wall-clock
time.  On a machine five hours behind UTC (local 12:00:00, UTC 17:00:00) the
branch created is `db-update-20260101-120000`, not the UTC-named
`db-update-20260101-170000`. -/
theorem C9_utc_timestamp_cex :
    Eff.branchCreate "db-update-20260101-120000" ∈ trace ⟨"https://github.com/u/r.git", "main"⟩
      ⟨false, "main", false, none, none, some "db.url=jdbc:x\n", true, none, none, none,
        ⟨2026, 1, 1, 12, 0, 0⟩, ⟨2026, 1, 1, 17, 0, 0⟩⟩
      "c.properties" "db.url" "jdbc:y" true "db-update" false ∧
    Eff.branchCreate "db-update-20260101-170000" ∉ trace ⟨"https://github.com/u/r.git", "main"⟩
      ⟨false, "main", false, none, none, some "db.url=jdbc:x\n", true, none, none, none,
        ⟨2026, 1, 1, 12, 0, 0⟩, ⟨2026, 1, 1, 17, 0, 0⟩⟩
      "c.properties" "db.url" "jdbc:y" true "db-update" false ∧
    fmtTS ⟨2026, 1, 1, 17, 0, 0⟩ = "20260101-170000" ∧
    fmtTS ⟨2026, 1, 1, 12, 0, 0⟩ = "20260101-120000" := by
  refine ⟨by decide, by decide, by decide, by decide⟩

/-- C9, amended: for every publish that proceeds past the no-op check (the
working tree is dirty after staging), the feature branch created — on every
push/merge outcome — is named `{branch_prefix}-{timestamp}` where the
timestamp is the LOCAL time `datetime.now()` of creation formatted
`YYYYMMDD-HHMMSS`, not the UTC time; it is the only branch creation in the
run. -/
theorem C9_branch_name_local_timestamp (cfg : Cfg) (env : Env)
    (pf key newValue bp content : String) (auth : Bool) (b : String)
    (hsync1 : env.gitDirExists = true → env.pullErr = none)
    (hsync2 : env.gitDirExists = false → env.cloneErr = none)
    (hfile : env.file = some content)
    (hval : readProperty env.file key ≠ some newValue)
    (hd : env.isDirtyAfterAdd = true) :
    Eff.branchCreate b ∈ trace cfg env pf key newValue auth bp false ↔
      b = bp ++ "-" ++ fmtTS env.localNow := by
  obtain ⟨s', e, heq, hnc, hnb, hnw, hnd, hncd, hnma, hstash, hri⟩ :=
    cloneOrPull_ok cfg env ⟨false, none, false, env.activeBranchName⟩ hsync1 hsync2
  have hmem := commitAndPush_branchCreate cfg env s'
    ("Update " ++ key ++ " in " ++ pf) auth bp hri hd b
  unfold trace execute
  simp only [heq]
  rw [hfile] at hval
  rcases hcp : commitAndPush cfg env s' ("Update " ++ key ++ " in " ++ pf) auth bp
    with ⟨s2, e2, res⟩
  rw [hcp] at hmem
  cases res with
  | ok bn =>
    by_cases hs2 : s2.stashCreated = true
    · simp [hval, hfile, hcp, restoreStash, hs2, hnb, hmem]
    · simp only [Bool.not_eq_true] at hs2
      simp [hval, hfile, hcp, restoreStash, hs2, hnb, hmem]
  | error exc =>
    by_cases hs2 : s2.stashCreated = true
    · simp [hval, hfile, hcp, restoreStash, hs2, hnb, hmem]
    · simp only [Bool.not_eq_true] at hs2
      simp [hval, hfile, hcp, restoreStash, hs2, hnb, hmem]

/-- C9, witness for the amended theorem at a concrete successful publish. -/
theorem C9_branch_name_local_timestamp_witness :
    Eff.branchCreate "db-update-20260101-120000" ∈ trace ⟨"https://github.com/u/r.git", "main"⟩
      ⟨false, "main", false, none, none, some "db.url=jdbc:x\n", true, none, none, none,
        ⟨2026, 1, 1, 12, 0, 0⟩, ⟨2026, 1, 1, 17, 0, 0⟩⟩
      "c.properties" "db.url" "jdbc:y" true "db-update" false :=
  (C9_branch_name_local_timestamp ⟨"https://github.com/u/r.git", "main"⟩
    ⟨false, "main", false, none, none, some "db.url=jdbc:x\n", true, none, none, none,
      ⟨2026, 1, 1, 12, 0, 0⟩, ⟨2026, 1, 1, 17, 0, 0⟩⟩
    "c.properties" "db.url" "jdbc:y" "db-update" "db.url=jdbc:x\n" true
    "db-update-20260101-120000"
    (fun h => Bool.noConfusion h) (fun _ => rfl) rfl (by decide) rfl).mpr (by decide)

end UpdateDb
